import Mathlib

/-!
Shallow embedding of `src/AuthContext.tsx` from the `oidc-react` repository:
a React context provider wrapping the external `oidc-client` library.

The provider's own code is: the `hasCodeInUrl` URL test, `initUserManager`
configuration, a page-load effect, a `userLoaded` subscription effect,
the `login` / `logout` / `signOutRedirect` actions, and the computed
context value (including the `isAuthenticated` field that reads
`localStorage`).  Calls into the external library and into the optional
user callbacks are modelled as events in a trace; the reactive `userData`
state is obtained by folding the `setUserData` events of a trace.
-/

namespace OidcReact

/-- The slice of the DOM `Location` object used by the shim:
`location.search` and `location.hash`. -/
structure Location where
  search : String
  hash : String
deriving DecidableEq, Repr

/-- Numeric value of a hexadecimal digit, as in percent-decoding, computed
on the code point: digits are 48–57, uppercase A–F are 65–70, lowercase
a–f are 97–102. -/
def hexDigitVal (c : Char) : Option Nat :=
  let n := c.toNat
  if 48 ≤ n ∧ n ≤ 57 then some (n - 48)
  else if 65 ≤ n ∧ n ≤ 70 then some (n - 55)
  else if 97 ≤ n ∧ n ≤ 102 then some (n - 87)
  else none

/-- Percent-decoding of `application/x-www-form-urlencoded` text: a `%`
followed by two hex digits becomes the denoted byte; a `%` not followed by
two hex digits is kept as-is. -/
def percentDecode : List Char → List Char
  | [] => []
  | '%' :: a :: b :: rest =>
      match hexDigitVal a, hexDigitVal b with
      | some hi, some lo => Char.ofNat (16 * hi + lo) :: percentDecode rest
      | _, _ => '%' :: percentDecode (a :: b :: rest)
  | c :: rest => c :: percentDecode rest

/-- Form-urlencoded decoding: `+` becomes a space, then percent-decoding. -/
def formDecode (cs : List Char) : String :=
  String.mk (percentDecode (cs.map (fun c => if c = '+' then ' ' else c)))

/-- Split a piece `name=value` at its first `=`; a piece with no `=` is all
name with empty value (the `URLSearchParams` convention). -/
def splitFirstEq : List Char → List Char × List Char
  | [] => ([], [])
  | '=' :: rest => ([], rest)
  | c :: rest =>
      let p := splitFirstEq rest
      (c :: p.1, p.2)

/-- Split the input on every `&`, keeping empty pieces for now. -/
def splitAmp : List Char → List (List Char)
  | [] => [[]]
  | '&' :: rest => [] :: splitAmp rest
  | c :: rest =>
      match splitAmp rest with
      | [] => [[c]]
      | piece :: more => (c :: piece) :: more

/-- The `URLSearchParams(init)` parse: strip one leading `?`, split on `&`,
skip empty pieces, split each piece at its first `=`, and form-decode
names and values.  This is the name/value list that `get` searches. -/
def parseSearchParams (init : String) : List (String × String) :=
  let cs := match init.data with
            | '?' :: rest => rest
            | other => other
  (splitAmp cs).filterMap fun piece =>
    if piece = [] then none
    else
      let p := splitFirstEq piece
      some (formDecode p.1, formDecode p.2)

/-- `URLSearchParams.get(name)`: the value of the first pair with the given
name, or `null` (here `none`) when the name does not occur. -/
def get (pairs : List (String × String)) (name : String) : Option String :=
  (pairs.find? (fun p => p.1 = name)).map Prod.snd

/-- JavaScript truthiness of a `URLSearchParams.get` result: `null` and the
empty string are falsy, every other string is truthy. -/
def jsTruthyStr : Option String → Bool
  | none => false
  | some s => if s = "" then false else true

/-- JavaScript `str.replace('#', '?')`: only the first occurrence of the
one-character pattern is replaced. -/
def replaceFirstChar (pat repl : Char) : List Char → List Char
  | [] => []
  | c :: rest => if c = pat then repl :: rest else c :: replaceFirstChar pat repl rest

/-- The parameter list of `new URLSearchParams(location.search)`. -/
def searchParamsOf (location : Location) : List (String × String) :=
  parseSearchParams location.search

/-- The parameter list of
`new URLSearchParams(location.hash.replace('#', '?'))`. -/
def hashParamsOf (location : Location) : List (String × String) :=
  parseSearchParams (String.mk (replaceFirstChar '#' '?' location.hash.data))

/-- `hasCodeInUrl` from `AuthContext.tsx`:
`Boolean(searchParams.get('code') || searchParams.get('id_token') ||
searchParams.get('session_state') || hashParams.get('code') ||
hashParams.get('id_token') || hashParams.get('session_state'))`. -/
def hasCodeInUrl (location : Location) : Bool :=
  jsTruthyStr (get (searchParamsOf location) "code") ||
  jsTruthyStr (get (searchParamsOf location) "id_token") ||
  jsTruthyStr (get (searchParamsOf location) "session_state") ||
  jsTruthyStr (get (hashParamsOf location) "code") ||
  jsTruthyStr (get (hashParamsOf location) "id_token") ||
  jsTruthyStr (get (hashParamsOf location) "session_state")

/-- The user/session object produced by the external `oidc-client` library.
The shim only ever reads `expired` and the three profile fields; everything
else the library puts in the object (tokens, claims, scopes, …) is kept as
an opaque `payload` of an arbitrary type `τ`, which the shim can neither
inspect nor modify. -/
structure User (τ : Type) where
  expired : Bool
  profileName : Option String
  profilePicture : Option String
  profileEmail : Option String
  payload : τ
deriving DecidableEq, Repr

/-- One observable step of the provider: a call into the external
`userManager`, an invocation of an optional user callback, or a write to
the reactive `userData` state via `setUserData`. -/
inductive Event (τ α : Type) where
  | callSigninCallback
  | callGetUser
  | callSigninRedirect (args : Option α)
  | callRemoveUser
  | callSignoutRedirect (args : Option α)
  | setUserData (u : Option (User τ))
  | cbOnSignIn (u : User τ)
  | cbOnBeforeSignIn
  | cbOnSignOut
deriving DecidableEq, Repr

/-- The external library's responses during one page load: the user object
`signinCallback()` resolves with, and the stored user (or `null`) that
`getUser()` resolves with. -/
structure UserManagerConn (τ : Type) where
  signinCallbackUser : User τ
  storedUser : Option (User τ)
deriving DecidableEq, Repr

/-- Which of the optional callbacks `onSignIn`, `onBeforeSignIn`,
`onSignOut` the consumer passed to `AuthProvider`. -/
structure Callbacks where
  hasOnSignIn : Bool
  hasOnBeforeSignIn : Bool
  hasOnSignOut : Bool
deriving DecidableEq, Repr

/-- The reactive `userData` state after a trace of events: the value of the
last `setUserData` in the trace, or the initial state when there is none. -/
def applyEvents (init : Option (User τ)) : List (Event τ α) → Option (User τ)
  | [] => init
  | Event.setUserData u :: rest => applyEvents u rest
  | _ :: rest => applyEvents init rest

/-- JavaScript `!user || user.expired` on the result of `getUser()`. -/
def jsNoUserOrExpired : Option (User τ) → Bool
  | none => true
  | some u => u.expired

/-- The default of the destructured `autoSignIn = true` prop. -/
def autoSignInDefault : Bool := true

/-- The `getUser` effect that `AuthProvider` runs on each page load
(the `useEffect` with `[location]` dependencies), as an event trace:
if `hasCodeInUrl(location)` then `signinCallback()`, `setUserData(user)`,
and `onSignIn(user)` when provided; otherwise `getUser()`, then either
(`onBeforeSignIn()` when provided, `signinRedirect()`) when the user is
missing or expired and `autoSignIn` holds, or `setUserData(user)`. -/
def getUserEffect (location : Location) (autoSignIn : Bool) (cb : Callbacks)
    (um : UserManagerConn τ) : List (Event τ α) :=
  if hasCodeInUrl location then
    Event.callSigninCallback ::
    Event.setUserData (some um.signinCallbackUser) ::
    (if cb.hasOnSignIn then [Event.cbOnSignIn um.signinCallbackUser] else [])
  else
    Event.callGetUser ::
    (if jsNoUserOrExpired um.storedUser && autoSignIn then
      (if cb.hasOnBeforeSignIn then [Event.cbOnBeforeSignIn] else []) ++
      [Event.callSigninRedirect none]
    else
      [Event.setUserData um.storedUser])

/-- `signOutHooks`: `setUserData(null)` then `onSignOut && onSignOut()`. -/
def signOutHooks (cb : Callbacks) : List (Event τ α) :=
  Event.setUserData none ::
  (if cb.hasOnSignOut then [Event.cbOnSignOut] else [])

/-- The `login` action of the context value:
`await userManager.signinRedirect(args)`. -/
def login (args : α) : List (Event τ α) :=
  [Event.callSigninRedirect (some args)]

/-- The `logout` action of the context value:
`await userManager.removeUser()` then `await signOutHooks()`. -/
def logout (cb : Callbacks) : List (Event τ α) :=
  Event.callRemoveUser :: signOutHooks cb

/-- The `signOutRedirect` action of the context value:
`await userManager.signoutRedirect(args)` then `await signOutHooks()`. -/
def signOutRedirect (cb : Callbacks) (args : Option α) : List (Event τ α) :=
  Event.callSignoutRedirect args :: signOutHooks cb

/-- The `updateUserData` handler registered on the library's `userLoaded`
event: `getUser()` then `setUserData` with its result. -/
def updateUserData (um : UserManagerConn τ) : List (Event τ α) :=
  [Event.callGetUser, Event.setUserData um.storedUser]

/-- `userManager.events.addUserLoaded(h)`: append the handler to the
registered handlers (handlers are identified by reference, modelled as
`Nat` ids). -/
def addUserLoaded (handlers : List Nat) (h : Nat) : List Nat :=
  handlers ++ [h]

/-- `userManager.events.removeUserLoaded(h)`: remove the first occurrence
of exactly that handler. -/
def removeUserLoaded (handlers : List Nat) (h : Nat) : List Nat :=
  handlers.erase h

/-- Settings object passed to `new UserManager({...})` in
`initUserManager`. -/
structure UserManagerSettings where
  authority : Option String
  client_id : Option String
  client_secret : Option String
  redirect_uri : Option String
  silent_redirect_uri : Option String
  post_logout_redirect_uri : Option String
  response_type : String
  scope : String
  loadUserInfo : Bool
  automaticSilentRenew : Option Bool
deriving DecidableEq, Repr

/-- The result of `initUserManager`: either the caller-provided
`UserManager` instance (an opaque value of type `μ`), returned as-is, or a
freshly constructed one, represented by its settings. -/
inductive UserManagerVal (μ : Type) where
  | provided (m : μ)
  | constructed (s : UserManagerSettings)
deriving DecidableEq, Repr

/-- The `AuthProviderProps` fields read by `initUserManager`.  Optional /
possibly-undefined fields are `Option`s. -/
structure AuthProviderProps (μ : Type) where
  userManager : Option μ
  authority : Option String
  clientId : Option String
  clientSecret : Option String
  redirectUri : Option String
  responseType : Option String
  scope : Option String
  automaticSilentRenew : Option Bool
deriving DecidableEq, Repr

/-- JavaScript `s || d` on a possibly-undefined string: undefined and the
empty string fall back to the default. -/
def jsOrString : Option String → String → String
  | some s, d => if s = "" then d else s
  | none, d => d

/-- `initUserManager` from `AuthContext.tsx`: return `props.userManager`
when provided, else construct a `UserManager` from the props. -/
def initUserManager (props : AuthProviderProps μ) : UserManagerVal μ :=
  match props.userManager with
  | some m => UserManagerVal.provided m
  | none => UserManagerVal.constructed
      { authority := props.authority
        client_id := props.clientId
        client_secret := props.clientSecret
        redirect_uri := props.redirectUri
        silent_redirect_uri := props.redirectUri
        post_logout_redirect_uri := props.redirectUri
        response_type := jsOrString props.responseType "code"
        scope := jsOrString props.scope "openid"
        loadUserInfo := true
        automaticSilentRenew := props.automaticSilentRenew }

/-- The JSON object the external library persists under
`oidc.user:{authority}:{clientId}` in `localStorage`, abstracted to the
only field the shim reads: `expires_at` (a JSON number, in seconds;
`none` when the field is absent).  A key with no entry is `none` at the
storage level. -/
structure StoredJson where
  expires_at : Option ℚ
deriving DecidableEq

/-- JavaScript template interpolation of a possibly-undefined string:
undefined prints as "undefined". -/
def jsTemplateArg : Option String → String
  | some s => s
  | none => "undefined"

/-- The `localStorage` key read by `isAuthenticated`:
`oidc.user:{props.authority}:{props.clientId}`. -/
def oidcUserKey (authority clientId : Option String) : String :=
  "oidc.user:" ++ jsTemplateArg authority ++ ":" ++ jsTemplateArg clientId

/-- `JSON.parse(localStorage.getItem(key)!)?.expires_at`: `none` when the
key is missing (`JSON.parse(null)` is `null`, and `null?.expires_at` is
undefined) or when the parsed object has no `expires_at`. -/
def readExpiresAt (storage : String → Option StoredJson) (key : String) : Option ℚ :=
  (storage key).bind StoredJson.expires_at

/-- The `isAuthenticated` expression of the context value:
`userData?.expired ? false : (JSON.parse(localStorage.getItem(key)!)?.expires_at
< new Date().getTime() / 1000)`.  `undefined < now` is `false` in
JavaScript, so a missing `expires_at` yields `false`. -/
def isAuthenticated (userData : Option (User τ)) (expiresAt : Option ℚ)
    (now : ℚ) : Bool :=
  if (userData.map User.expired).getD false then false
  else
    match expiresAt with
    | some e => decide (e < now)
    | none => false

/-- The data fields of the context value `AuthProvider` renders (the
action closures are modelled separately as `login`, `logout`,
`signOutRedirect`). -/
structure ContextValue (τ : Type) where
  userData : Option (User τ)
  userId : Option String
  userAvatar : Option String
  userEmail : Option String
  userName : Option String
  isAuthenticated : Bool
  method : String
deriving DecidableEq, Repr

/-- The context value computed by `AuthProvider` from the current
`userData` state, the contents of `localStorage`, the current time in
seconds, and the `authority` / `clientId` props. -/
def mkContextValue (userData : Option (User τ))
    (storage : String → Option StoredJson) (now : ℚ)
    (authority clientId : Option String) : ContextValue τ :=
  { userData := userData
    userId := userData.bind User.profileName
    userAvatar := userData.bind User.profilePicture
    userEmail := userData.bind User.profileEmail
    userName := userData.bind User.profileName
    isAuthenticated :=
      isAuthenticated userData
        (readExpiresAt storage (oidcUserKey authority clientId)) now
    method := "OIDC" }

/-- Whether an event is an invocation of the `onSignOut` callback. -/
def isCbOnSignOut : Event τ α → Bool
  | Event.cbOnSignOut => true
  | _ => false

/-- Spec-side reading of the claim's wording, for comparison with
`hasCodeInUrl`: at least one of the parameters `code`, `id_token`,
`session_state` appears — anywhere in the query-string or fragment
parameter list — with a non-empty value. -/
def specAppearsWithNonemptyValue (location : Location) : Prop :=
  ∃ p ∈ searchParamsOf location ++ hashParamsOf location,
    (p.1 = "code" ∨ p.1 = "id_token" ∨ p.1 = "session_state") ∧ p.2 ≠ ""

/-- A concrete non-expired user with no profile fields, for witnesses. -/
def sampleUser : User Unit :=
  { expired := false, profileName := none, profilePicture := none
    profileEmail := none, payload := () }

/-- A `localStorage` with no entries. -/
def emptyStorage : String → Option StoredJson := fun _ => none

/-- A `localStorage` holding, under the key `oidc.user:a:b`, a session
whose `expires_at` lies in the past. -/
def expiredSessionStorage : String → Option StoredJson :=
  fun k => if k = "oidc.user:a:b" then some { expires_at := some 0 } else none

/-- Concrete props with no caller-provided `UserManager`, for witnesses. -/
def sampleProps : AuthProviderProps Nat :=
  { userManager := none, authority := some "a", clientId := some "b"
    clientSecret := none, redirectUri := some "r", responseType := none
    scope := none, automaticSilentRenew := none }

/-- If every pair named `n` in the list has an empty value, then the
`get` result for `n` is falsy. -/
theorem jsTruthyStr_get_false_of_all_empty (pairs : List (String × String))
    (n : String) (h : ∀ p ∈ pairs, p.1 = n → p.2 = "") :
    jsTruthyStr (get pairs n) = false := by
  unfold get
  cases hf : pairs.find? (fun p => p.1 = n) with
  | none => rfl
  | some p =>
      have hmem : p ∈ pairs := List.mem_of_find?_eq_some hf
      have hname : p.1 = n := by simpa using List.find?_some hf
      have hval : p.2 = "" := h p hmem hname
      simp [jsTruthyStr, hval]

/-- Claim C1 (amended): the page load is treated as a return from the
identity provider iff one of the parameters `code`, `id_token`,
`session_state` has a non-empty first value (the value `URLSearchParams.get`
returns) in the query string or in the fragment; exactly in that case the
page-load effect takes the `signinCallback` branch. -/
theorem hasCodeInUrl_iff_first_value_nonempty (location : Location) :
    (hasCodeInUrl location = true ↔
      ∃ n ∈ (["code", "id_token", "session_state"] : List String),
        jsTruthyStr (get (searchParamsOf location) n) = true ∨
        jsTruthyStr (get (hashParamsOf location) n) = true) ∧
    (∀ (τ α : Type) (a : Bool) (cb : Callbacks) (um : UserManagerConn τ),
      Event.callSigninCallback ∈ getUserEffect (α := α) location a cb um ↔
        hasCodeInUrl location = true) := by
  constructor
  · constructor
    · intro h
      simp only [hasCodeInUrl, Bool.or_eq_true] at h
      rcases h with ((((h | h) | h) | h) | h) | h
      · exact ⟨"code", by simp, Or.inl h⟩
      · exact ⟨"id_token", by simp, Or.inl h⟩
      · exact ⟨"session_state", by simp, Or.inl h⟩
      · exact ⟨"code", by simp, Or.inr h⟩
      · exact ⟨"id_token", by simp, Or.inr h⟩
      · exact ⟨"session_state", by simp, Or.inr h⟩
    · rintro ⟨n, hn, h⟩
      simp only [List.mem_cons, List.not_mem_nil, or_false] at hn
      simp only [hasCodeInUrl, Bool.or_eq_true]
      rcases hn with rfl | rfl | rfl <;> rcases h with h | h <;> tauto
  · intro τ α a cb um
    cases hb : hasCodeInUrl location with
    | true =>
        cases hs : cb.hasOnSignIn <;> simp [getUserEffect, hb, hs]
    | false =>
        cases hc : jsNoUserOrExpired um.storedUser && a <;>
          cases hpre : cb.hasOnBeforeSignIn <;>
          simp [getUserEffect, hb, hc, hpre]

/-- Claim C1, as stated, is false: in `?code=&code=x` the parameter `code`
appears with the non-empty value `x`, yet `URLSearchParams.get` returns the
first value, which is empty, so `hasCodeInUrl` is `false`. -/
theorem hasCodeInUrl_appears_nonempty_counterexample :
    ¬ (hasCodeInUrl ⟨"?code=&code=x", ""⟩ = true ↔
       specAppearsWithNonemptyValue ⟨"?code=&code=x", ""⟩) := by
  intro h
  have hx : specAppearsWithNonemptyValue ⟨"?code=&code=x", ""⟩ :=
    ⟨("code", "x"), by decide, by decide⟩
  exact absurd (h.mpr hx) (by decide)

/-- Claim C3: on a redirect return the provider calls `signinCallback()`,
sets `userData` to exactly the user that call resolves with, and then
invokes `onSignIn` (when provided) with that same object; the resulting
`userData` is that user. -/
theorem signinCallback_branch_exact (τ α : Type) (location : Location)
    (a : Bool) (cb : Callbacks) (um : UserManagerConn τ)
    (ud : Option (User τ)) (h : hasCodeInUrl location = true) :
    getUserEffect (α := α) location a cb um =
      Event.callSigninCallback ::
      Event.setUserData (some um.signinCallbackUser) ::
      (if cb.hasOnSignIn then [Event.cbOnSignIn um.signinCallbackUser]
       else []) ∧
    applyEvents ud (getUserEffect (α := α) location a cb um) =
      some um.signinCallbackUser := by
  cases hs : cb.hasOnSignIn <;> simp [getUserEffect, h, hs, applyEvents]

/-- Claim C3 at a concrete input: a `?code=abc` page load with an
`onSignIn` callback present. -/
theorem signinCallback_branch_exact_witness :
    getUserEffect (τ := Unit) (α := Unit) ⟨"?code=abc", ""⟩ true
        ⟨true, false, false⟩ ⟨sampleUser, none⟩ =
      [Event.callSigninCallback, Event.setUserData (some sampleUser),
       Event.cbOnSignIn sampleUser] ∧
    applyEvents none
        (getUserEffect (τ := Unit) (α := Unit) ⟨"?code=abc", ""⟩ true
          ⟨true, false, false⟩ ⟨sampleUser, none⟩) =
      some sampleUser := by
  have h := signinCallback_branch_exact Unit Unit ⟨"?code=abc", ""⟩ true
    ⟨true, false, false⟩ ⟨sampleUser, none⟩ none (by decide)
  simpa using h

/-- Claim C4: on a page load that is not a redirect return the provider
calls `getUser()`; when the result is missing or expired and `autoSignIn`
(whose default is `true`) holds, it runs `onBeforeSignIn` (when provided)
and then `signinRedirect()`, leaving `userData` unchanged; otherwise it
sets `userData` to the returned user. -/
theorem plain_load_branch (τ α : Type) (location : Location) (a : Bool)
    (cb : Callbacks) (um : UserManagerConn τ) (ud : Option (User τ))
    (h : hasCodeInUrl location = false) :
    autoSignInDefault = true ∧
    ((jsNoUserOrExpired um.storedUser && a) = true →
      getUserEffect (α := α) location a cb um =
        Event.callGetUser ::
        ((if cb.hasOnBeforeSignIn then [Event.cbOnBeforeSignIn] else []) ++
         [Event.callSigninRedirect none]) ∧
      applyEvents ud (getUserEffect (α := α) location a cb um) = ud) ∧
    ((jsNoUserOrExpired um.storedUser && a) = false →
      getUserEffect (α := α) location a cb um =
        [Event.callGetUser, Event.setUserData um.storedUser] ∧
      applyEvents ud (getUserEffect (α := α) location a cb um) =
        um.storedUser) := by
  refine ⟨rfl, ?_, ?_⟩ <;> intro hc <;>
    cases hpre : cb.hasOnBeforeSignIn <;>
    simp [getUserEffect, h, hc, hpre, applyEvents]

/-- Claim C4 at concrete inputs: a plain page load with no stored user and
`autoSignIn` on triggers `onBeforeSignIn` and `signinRedirect`; the same
load with `autoSignIn` off stores the (`null`) user. -/
theorem plain_load_branch_witness :
    (getUserEffect (τ := Unit) (α := Unit) ⟨"", ""⟩ true ⟨false, true, false⟩
        ⟨sampleUser, none⟩ =
      [Event.callGetUser, Event.cbOnBeforeSignIn,
       Event.callSigninRedirect none] ∧
     applyEvents (some sampleUser)
        (getUserEffect (τ := Unit) (α := Unit) ⟨"", ""⟩ true
          ⟨false, true, false⟩ ⟨sampleUser, none⟩) = some sampleUser) ∧
    (getUserEffect (τ := Unit) (α := Unit) ⟨"", ""⟩ false ⟨false, true, false⟩
        ⟨sampleUser, none⟩ =
      [Event.callGetUser, Event.setUserData none] ∧
     applyEvents (some sampleUser)
        (getUserEffect (τ := Unit) (α := Unit) ⟨"", ""⟩ false
          ⟨false, true, false⟩ ⟨sampleUser, none⟩) = none) := by
  constructor
  · have h := (plain_load_branch Unit Unit ⟨"", ""⟩ true ⟨false, true, false⟩
      ⟨sampleUser, none⟩ (some sampleUser) (by decide)).2.1 (by decide)
    simpa using h
  · have h := (plain_load_branch Unit Unit ⟨"", ""⟩ false ⟨false, true, false⟩
      ⟨sampleUser, none⟩ (some sampleUser) (by decide)).2.2 (by decide)
    simpa using h

/-- Claim C5: the `login` action delegates exactly to
`userManager.signinRedirect(args)` and changes no shim state: `userData`
is unchanged by `login` itself. -/
theorem login_delegates_only (τ α : Type) (args : α) (ud : Option (User τ)) :
    login (τ := τ) args = [Event.callSigninRedirect (some args)] ∧
    applyEvents ud (login (τ := τ) args) = ud :=
  ⟨rfl, rfl⟩

/-- Claim C6: after `logout` or `signOutRedirect` the `userData` state is
`null` and `onSignOut` (when provided) has run exactly once, in the order:
`userManager` call (`removeUser`, resp. `signoutRedirect(args)`), then
`setUserData(null)`, then `onSignOut`. -/
theorem logout_signout_order (τ α : Type) (cb : Callbacks) (args : Option α)
    (ud : Option (User τ)) :
    logout (τ := τ) (α := α) cb =
      Event.callRemoveUser :: Event.setUserData none ::
      (if cb.hasOnSignOut then [Event.cbOnSignOut] else []) ∧
    signOutRedirect (τ := τ) cb args =
      Event.callSignoutRedirect args :: Event.setUserData none ::
      (if cb.hasOnSignOut then [Event.cbOnSignOut] else []) ∧
    applyEvents ud (logout (τ := τ) (α := α) cb) = none ∧
    applyEvents ud (signOutRedirect (τ := τ) cb args) = none ∧
    (logout (τ := τ) (α := α) cb).countP isCbOnSignOut =
      (if cb.hasOnSignOut then 1 else 0) ∧
    (signOutRedirect (τ := τ) cb args).countP isCbOnSignOut =
      (if cb.hasOnSignOut then 1 else 0) := by
  cases hs : cb.hasOnSignOut <;>
    simp [logout, signOutRedirect, signOutHooks, applyEvents, hs,
      isCbOnSignOut, List.countP_cons, List.countP_nil]

/-- Claim C7: the mount effect registers on the library's `userLoaded`
event a handler that calls `getUser()` and sets `userData` to its result,
and the unmount cleanup removes exactly that handler, restoring the
previous handler list. -/
theorem userLoaded_subscription (τ α : Type) (um : UserManagerConn τ)
    (handlers : List Nat) (h : Nat) (ud : Option (User τ))
    (hnew : h ∉ handlers) :
    updateUserData (α := α) um =
      [Event.callGetUser, Event.setUserData um.storedUser] ∧
    applyEvents ud (updateUserData (α := α) um) = um.storedUser ∧
    addUserLoaded handlers h = handlers ++ [h] ∧
    removeUserLoaded (addUserLoaded handlers h) h = handlers := by
  refine ⟨rfl, rfl, rfl, ?_⟩
  unfold removeUserLoaded addUserLoaded
  rw [List.erase_append_right _ hnew]
  simp

/-- Claim C7 at a concrete input: handler `7` added to the list `[3]` and
removed again. -/
theorem userLoaded_subscription_witness :
    applyEvents (τ := Unit) (α := Unit) none
        (updateUserData ⟨sampleUser, some sampleUser⟩) = some sampleUser ∧
    removeUserLoaded (addUserLoaded [3] 7) 7 = [3] := by
  have h := userLoaded_subscription Unit Unit
    (⟨sampleUser, some sampleUser⟩ : UserManagerConn Unit) [3] 7 none
    (by decide)
  exact ⟨h.2.1, h.2.2.2⟩

/-- Claim C8: when `userData` is present and expired, `isAuthenticated` is
`false`; when `userData` is `null` or not expired, `isAuthenticated` is
`true` exactly when the `expires_at` of the JSON stored under
`oidc.user:{authority}:{clientId}` is strictly less than the current time
in seconds; a missing or `null` storage entry yields a falsy result. -/
theorem isAuthenticated_characterization (τ : Type) (ud : Option (User τ))
    (storage : String → Option StoredJson) (now : ℚ)
    (authority clientId : Option String) :
    (∀ u, ud = some u → u.expired = true →
      (mkContextValue ud storage now authority clientId).isAuthenticated =
        false) ∧
    ((ud = none ∨ ∃ u, ud = some u ∧ u.expired = false) →
      ((mkContextValue ud storage now authority clientId).isAuthenticated =
          true ↔
        ∃ e, readExpiresAt storage (oidcUserKey authority clientId) = some e ∧
          e < now)) ∧
    (readExpiresAt storage (oidcUserKey authority clientId) = none →
      (mkContextValue ud storage now authority clientId).isAuthenticated =
        false) := by
  refine ⟨?_, ?_, ?_⟩
  · rintro u rfl hexp
    simp [mkContextValue, isAuthenticated, hexp]
  · intro hcase
    have hnotexp : (ud.map User.expired).getD false = false := by
      rcases hcase with rfl | ⟨u, rfl, he⟩
      · simp
      · simp [he]
    cases hstored : readExpiresAt storage (oidcUserKey authority clientId) with
    | none => simp [mkContextValue, isAuthenticated, hnotexp, hstored]
    | some e => simp [mkContextValue, isAuthenticated, hnotexp, hstored]
  · intro hnone
    cases hexp : (ud.map User.expired).getD false <;>
      simp [mkContextValue, isAuthenticated, hexp, hnone]

/-- Claim C8 at concrete inputs: a stored session with `expires_at = 0` in
the past makes `isAuthenticated` `true` at time `1`, and an empty storage
makes it `false`. -/
theorem isAuthenticated_characterization_witness :
    (mkContextValue (τ := Unit) none expiredSessionStorage 1 (some "a")
        (some "b")).isAuthenticated = true ∧
    (mkContextValue (τ := Unit) none emptyStorage 1 (some "a")
        (some "b")).isAuthenticated = false := by
  constructor
  · exact ((isAuthenticated_characterization Unit none expiredSessionStorage 1
      (some "a") (some "b")).2.1 (Or.inl rfl)).mpr ⟨0, by decide, by decide⟩
  · exact (isAuthenticated_characterization Unit none emptyStorage 1
      (some "a") (some "b")).2.2 rfl

/-- Claim C9: `initUserManager` returns a provided `userManager` as-is;
otherwise it constructs one where `response_type` defaults to `code`,
`scope` defaults to `openid`, `loadUserInfo` is always `true`, and the
single `redirectUri` prop fills `redirect_uri`, `silent_redirect_uri` and
`post_logout_redirect_uri`. -/
theorem initUserManager_config (μ : Type) (props : AuthProviderProps μ) :
    (∀ m, props.userManager = some m →
      initUserManager props = UserManagerVal.provided m) ∧
    (props.userManager = none →
      initUserManager props = UserManagerVal.constructed
        { authority := props.authority
          client_id := props.clientId
          client_secret := props.clientSecret
          redirect_uri := props.redirectUri
          silent_redirect_uri := props.redirectUri
          post_logout_redirect_uri := props.redirectUri
          response_type := jsOrString props.responseType "code"
          scope := jsOrString props.scope "openid"
          loadUserInfo := true
          automaticSilentRenew := props.automaticSilentRenew } ∧
      (props.responseType = none →
        jsOrString props.responseType "code" = "code") ∧
      (props.scope = none → jsOrString props.scope "openid" = "openid")) := by
  constructor
  · intro m hm
    simp [initUserManager, hm]
  · intro hn
    refine ⟨by simp [initUserManager, hn], ?_, ?_⟩ <;>
      intro h0 <;> simp [h0, jsOrString]

/-- Claim C9 at concrete inputs: a provided manager is passed through; with
no manager, no `responseType` and no `scope` the defaults appear and the
one redirect URI fills all three settings. -/
theorem initUserManager_config_witness :
    initUserManager (μ := Nat) { sampleProps with userManager := some 7 } =
      UserManagerVal.provided 7 ∧
    initUserManager sampleProps = UserManagerVal.constructed
      { authority := some "a", client_id := some "b", client_secret := none
        redirect_uri := some "r", silent_redirect_uri := some "r"
        post_logout_redirect_uri := some "r", response_type := "code"
        scope := "openid", loadUserInfo := true
        automaticSilentRenew := none } := by
  constructor
  · exact (initUserManager_config Nat
      { sampleProps with userManager := some 7 }).1 7 rfl
  · have h := ((initUserManager_config Nat sampleProps).2 rfl).1
    simpa [sampleProps, jsOrString] using h

/-- Claim C2, as stated, is false: with the same `userData` (here `null`),
an empty `localStorage` and a `localStorage` holding an expired session
under `oidc.user:a:b` yield different context values — the
`isAuthenticated` field reads the stored entry. -/
theorem contextValue_storage_counterexample :
    ¬ (mkContextValue (τ := Unit) none emptyStorage 1 (some "a") (some "b") =
       mkContextValue (τ := Unit) none expiredSessionStorage 1 (some "a")
         (some "b")) := by
  intro hEq
  have h := congrArg ContextValue.isAuthenticated hEq
  have h1 : (mkContextValue (τ := Unit) none emptyStorage 1 (some "a")
      (some "b")).isAuthenticated = false := by decide
  have h2 : (mkContextValue (τ := Unit) none expiredSessionStorage 1
      (some "a") (some "b")).isAuthenticated = true := by decide
  rw [h1, h2] at h
  exact Bool.noConfusion h

/-- Claim C2 (amended): for any two `localStorage` contents (and any two
clock readings), the context values computed from the same `userData`
agree on every field except possibly `isAuthenticated`; that one field
does read the entry stored under `oidc.user:{authority}:{clientId}`. -/
theorem contextValue_storage_independent_except_isAuthenticated (τ : Type)
    (ud : Option (User τ)) (s1 s2 : String → Option StoredJson)
    (now1 now2 : ℚ) (authority clientId : Option String) :
    (mkContextValue ud s1 now1 authority clientId).userData =
      (mkContextValue ud s2 now2 authority clientId).userData ∧
    (mkContextValue ud s1 now1 authority clientId).userId =
      (mkContextValue ud s2 now2 authority clientId).userId ∧
    (mkContextValue ud s1 now1 authority clientId).userAvatar =
      (mkContextValue ud s2 now2 authority clientId).userAvatar ∧
    (mkContextValue ud s1 now1 authority clientId).userEmail =
      (mkContextValue ud s2 now2 authority clientId).userEmail ∧
    (mkContextValue ud s1 now1 authority clientId).userName =
      (mkContextValue ud s2 now2 authority clientId).userName ∧
    (mkContextValue ud s1 now1 authority clientId).method =
      (mkContextValue ud s2 now2 authority clientId).method :=
  ⟨rfl, rfl, rfl, rfl, rfl, rfl⟩

/-- Claim C10: `logout` clears `userData` to `null` strictly before the
`onSignOut` callback runs — any trace segment preceding the `onSignOut`
event already leaves `userData` at `null` — and a relevant URL parameter
that is present but empty is treated by `hasCodeInUrl` as absent, so the
`signinCallback` branch never runs on such a URL. -/
theorem logout_clears_first_and_empty_params_absent (τ α : Type) :
    (∀ (cb : Callbacks) (ud : Option (User τ)) (l r : List (Event τ α)),
        logout cb = l ++ Event.cbOnSignOut :: r → applyEvents ud l = none) ∧
    (∀ location : Location,
        (∀ p ∈ searchParamsOf location ++ hashParamsOf location,
            (p.1 = "code" ∨ p.1 = "id_token" ∨ p.1 = "session_state") →
            p.2 = "") →
        hasCodeInUrl location = false ∧
        ∀ (a : Bool) (cb : Callbacks) (um : UserManagerConn τ),
          Event.callSigninCallback ∉ getUserEffect (α := α) location a cb um) := by
  constructor
  · intro cb ud l r hsplit
    cases hs : cb.hasOnSignOut with
    | false =>
        exfalso
        have hmem : Event.cbOnSignOut ∈ logout (τ := τ) (α := α) cb := by
          rw [hsplit]
          exact List.mem_append_right _ (List.mem_cons_self _ _)
        simp [logout, signOutHooks, hs] at hmem
    | true =>
        rcases l with _ | ⟨e1, _ | ⟨e2, _ | ⟨e3, l3⟩⟩⟩
        · simp [logout, signOutHooks, hs] at hsplit
        · simp [logout, signOutHooks, hs] at hsplit
        · simp [logout, signOutHooks, hs] at hsplit
          obtain ⟨h1, h2, -⟩ := hsplit
          rw [← h1, ← h2]
          rfl
        · simp [logout, signOutHooks, hs] at hsplit
  · intro location hall
    have hsearch : ∀ n, (n = "code" ∨ n = "id_token" ∨ n = "session_state") →
        jsTruthyStr (get (searchParamsOf location) n) = false := by
      intro n hn
      apply jsTruthyStr_get_false_of_all_empty
      intro p hp hpn
      exact hall p (List.mem_append_left _ hp) (by rw [hpn]; exact hn)
    have hhash : ∀ n, (n = "code" ∨ n = "id_token" ∨ n = "session_state") →
        jsTruthyStr (get (hashParamsOf location) n) = false := by
      intro n hn
      apply jsTruthyStr_get_false_of_all_empty
      intro p hp hpn
      exact hall p (List.mem_append_right _ hp) (by rw [hpn]; exact hn)
    have hfalse : hasCodeInUrl location = false := by
      simp [hasCodeInUrl,
        hsearch "code" (Or.inl rfl),
        hsearch "id_token" (Or.inr (Or.inl rfl)),
        hsearch "session_state" (Or.inr (Or.inr rfl)),
        hhash "code" (Or.inl rfl),
        hhash "id_token" (Or.inr (Or.inl rfl)),
        hhash "session_state" (Or.inr (Or.inr rfl))]
    refine ⟨hfalse, ?_⟩
    intro a cb um
    cases hc : jsNoUserOrExpired um.storedUser && a <;>
      cases hpre : cb.hasOnBeforeSignIn <;>
      simp [getUserEffect, hfalse, hc, hpre]

/-- Claim C10 at concrete inputs: a `logout` with an `onSignOut` callback
has `userData` already `null` on the segment before the callback, and
`?code=` alone does not trigger the redirect-return branch. -/
theorem logout_clears_first_and_empty_params_absent_witness :
    applyEvents (τ := Unit) (α := Unit) (some sampleUser)
        [Event.callRemoveUser, Event.setUserData none] = none ∧
    hasCodeInUrl ⟨"?code=", ""⟩ = false := by
  have h := logout_clears_first_and_empty_params_absent Unit Unit
  constructor
  · exact h.1 ⟨false, false, true⟩ (some sampleUser)
      [Event.callRemoveUser, Event.setUserData none] [] (by decide)
  · exact (h.2 ⟨"?code=", ""⟩ (by decide)).1

end OidcReact
